import Mathlib

/-!
Verification development for the zeal language toolchain (scanner, parser,
tree-walking interpreter).  Each Rust item of src/ is embedded as a Lean
definition of the same name; mutable state (&mut self) is threaded as an
explicit state value, Rust panics become Except errors, and unbounded Rust
loops take a fuel argument whose exhaustion is the distinguished error
fuelErr (distinct from every panic).  Machine integers (i32) are embedded as
Int with explicit wrap-around where overflow could occur.
-/

/-- Wrap-around of a mathematical integer into the i32 range, modelling the
release-mode wrapping semantics of Rust i32 arithmetic. -/
def wrap32 (x : Int) : Int :=
  ((x + 2147483648) % 4294967296) - 2147483648

/-- TokenType from scanner.rs.  The variant LineEnd is referenced by
parser.rs; the scanner of this snapshot never emits it, but it is declared
here so the parser embeds verbatim. -/
inductive TokenType where
  | LeftParen
  | RightParen
  | LeftBrace
  | RightBrace
  | Comma
  | Dot
  | Plus
  | Semicolon
  | Colon
  | Star
  | Bang
  | BangEqual
  | Equal
  | EqualEqual
  | Greater
  | GreaterEqual
  | Less
  | LessEqual
  | And
  | AndAnd
  | Or
  | OrOr
  | Slash
  | SlashSlash
  | Mod
  | ModMod
  | Minus
  | ThinArrow
  | Pipeline
  | Identifier : String → TokenType
  | String : String → TokenType
  | Int : Int → TokenType
  | Then
  | Else
  | False
  | Fn
  | For
  | While
  | If
  | Print
  | Return
  | True
  | EndOfFile
  | Comment : String → TokenType
  | BeginBlock
  | EndBlock
  | LineEnd
  deriving BEq, Repr, DecidableEq

/-- Location from scanner.rs (line, col, index are usize). -/
structure Location where
  line : Nat
  col : Nat
  index : Nat
  deriving BEq, Repr, DecidableEq

/-- Token from scanner.rs. -/
structure Token where
  token_type : TokenType
  location : Location
  deriving BEq, Repr, DecidableEq

/-- Scan-time failure: fuelErr is fuel exhaustion of the embedding; the other
constructors are the scanner's panics (todo!/expect sites). -/
inductive ScanErr where
  | fuelErr
  | openBlockPanic
  | unterminatedStringPanic
  | intParsePanic
  deriving BEq, Repr, DecidableEq

/-- The Scanner struct.  The stream is the char sequence of the source text
(the Rust code indexes bytes for the length test and chars for access, which
coincide on the ASCII inputs considered here).  block_levels models the Rust
Vec with its top (Vec last / push / pop) at the HEAD of the list. -/
structure Scanner where
  stream : List Char
  curr_loc : Location
  tokens : List Token
  open_block : Option Location
  block_levels : List Nat
  deriving Repr

/-- Scanner::new. -/
def Scanner.new : Scanner :=
  { stream := []
    curr_loc := { line := 0, col := 0, index := 0 }
    tokens := []
    open_block := none
    block_levels := [] }

/-- Scanner::emit_token - pushes a token carrying the current location. -/
def Scanner.emit_token (s : Scanner) (token_type : TokenType) : Scanner :=
  { s with tokens := s.tokens ++ [{ token_type := token_type, location := s.curr_loc }] }

/-- Scanner::peek. -/
def Scanner.peek (s : Scanner) : Option Char :=
  if s.stream.length ≤ s.curr_loc.index then none
  else s.stream.get? s.curr_loc.index

/-- Scanner::next - consumes one char, advancing the location (newline resets
col and bumps line, tab adds 4 to col, otherwise col adds 1). -/
def Scanner.next (s : Scanner) : Option Char × Scanner :=
  if s.stream.length ≤ s.curr_loc.index then (none, s)
  else
    match s.stream.get? s.curr_loc.index with
    | none => (none, s)
    | some c =>
      if c == '\n' then
        (some c, { s with curr_loc :=
          { line := s.curr_loc.line + 1, col := 0, index := s.curr_loc.index + 1 } })
      else if c == '\t' then
        (some c, { s with curr_loc :=
          { s.curr_loc with col := s.curr_loc.col + 4, index := s.curr_loc.index + 1 } })
      else
        (some c, { s with curr_loc :=
          { s.curr_loc with col := s.curr_loc.col + 1, index := s.curr_loc.index + 1 } })

/-- Scanner::emit_open_block - panics (todo!) when the enclosing open level is
at or beyond the current column, otherwise clears the pending open-block mark,
pushes the current column and emits BeginBlock. -/
def Scanner.emit_open_block (s : Scanner) : Except ScanErr Scanner :=
  match s.block_levels.head? with
  | some curr_block_col =>
    if s.curr_loc.col ≤ curr_block_col then .error .openBlockPanic
    else .ok (({ s with
        open_block := none
        block_levels := s.curr_loc.col :: s.block_levels }).emit_token .BeginBlock)
  | none =>
    .ok (({ s with
        open_block := none
        block_levels := s.curr_loc.col :: s.block_levels }).emit_token .BeginBlock)

/-- The loop body of Scanner::emit_closed_blocks: pops levels while the stack
top is strictly greater than the given column, counting one EndBlock per
popped level. -/
def emitClosedLoop : List Nat → Nat → List Nat × Nat
  | [], _ => ([], 0)
  | level :: rest, col =>
    if level ≤ col then (level :: rest, 0)
    else
      let r := emitClosedLoop rest col
      (r.1, r.2 + 1)

/-- Scanner::emit_closed_blocks - emits one EndBlock (at the current location)
per popped level. -/
def Scanner.emit_closed_blocks (s : Scanner) : Scanner :=
  let r := emitClosedLoop s.block_levels s.curr_loc.col
  { s with
    block_levels := r.1
    tokens := s.tokens ++
      List.replicate r.2 { token_type := TokenType.EndBlock, location := s.curr_loc } }

/-- The loop of Scanner::emit_string: consume chars until the boundary quote;
running out of input is the unterminated-string panic (todo!). -/
def emit_string_loop : Nat → Scanner → Char → String → Except ScanErr Scanner
  | 0, _, _, _ => .error .fuelErr
  | n + 1, s, boundary, value =>
    match s.next with
    | (none, _) => .error .unterminatedStringPanic
    | (some c, s1) =>
      if c == boundary then .ok (s1.emit_token (TokenType.String value))
      else emit_string_loop n s1 boundary (value.push c)

/-- Scanner::emit_string. -/
def Scanner.emit_string (fuel : Nat) (s : Scanner) (boundary : Char) : Except ScanErr Scanner :=
  emit_string_loop fuel s boundary ""

/-- The digit-accumulation loop of Scanner::emit_int. -/
def emit_int_loop : Nat → Scanner → String → Except ScanErr (Scanner × String)
  | 0, _, _ => .error .fuelErr
  | n + 1, s, value =>
    match s.peek with
    | none => .ok (s, value)
    | some c =>
      if !c.isDigit then .ok (s, value)
      else emit_int_loop n (s.next).2 (value.push c)

/-- The numeric value of a digit string (the string fed to it is always a
nonempty run of ASCII digits). -/
def digitsToNat (value : String) : Nat :=
  value.data.foldl (fun acc c => acc * 10 + (c.toNat - 48)) 0

/-- str::parse::<i32> on a digit run: fails (panic "Failed to parse int")
when the value exceeds i32::MAX. -/
def parseI32 (value : String) : Except ScanErr Int :=
  if digitsToNat value ≤ 2147483647 then .ok (Int.ofNat (digitsToNat value))
  else .error .intParsePanic

/-- Scanner::emit_int. -/
def Scanner.emit_int (fuel : Nat) (s : Scanner) (first : Char) : Except ScanErr Scanner := do
  let (s1, value) ← emit_int_loop fuel s (String.singleton first)
  let v ← parseI32 value
  .ok (s1.emit_token (TokenType.Int v))

/-- Scanner::identifier_symbol. -/
def Scanner.identifier_symbol (c : Char) : Bool :=
  let allowed_symbols := ['-', '>', '<', '+', '/', '%', '&', '|', '!', '=', '*']
  allowed_symbols.contains c

/-- Scanner::identifier_character (Rust char::is_alphanumeric restricted to
the ASCII inputs considered here). -/
def Scanner.identifier_character (c : Char) : Bool :=
  c.isAlphanum || c == '_'

/-- The loop of Scanner::scan_identifier: extend while the char class of the
first char matches each subsequent char. -/
def scan_identifier_loop : Nat → Scanner → Char → String → Except ScanErr (Scanner × String)
  | 0, _, _, _ => .error .fuelErr
  | n + 1, s, first, value =>
    match s.peek with
    | none => .ok (s, value)
    | some c =>
      if (Scanner.identifier_character first && !(Scanner.identifier_character c))
          || (Scanner.identifier_symbol first && !(Scanner.identifier_symbol c)) then
        .ok (s, value)
      else scan_identifier_loop n (s.next).2 first (value.push c)

/-- Scanner::scan_identifier. -/
def Scanner.scan_identifier (fuel : Nat) (s : Scanner) (first : Char) :
    Except ScanErr (Scanner × String) :=
  scan_identifier_loop fuel s first (String.singleton first)

/-- Scanner::emit_end_of_file.  The Rust guard is written
`if !self.curr_loc.col == 0`, where `!` is bitwise NOT on usize, so the
reset branch runs only when col == usize::MAX; the function then only closes
the blocks whose level exceeds the final column, and emits no token. -/
def Scanner.emit_end_of_file (s : Scanner) : Scanner :=
  let s :=
    if 18446744073709551615 - s.curr_loc.col == 0 then
      { s with curr_loc := { s.curr_loc with col := 0, line := s.curr_loc.line + 1 } }
    else s
  s.emit_closed_blocks

/-- The keyword/operator table of Scanner::scan (the match on id.as_str()). -/
def Scanner.keywordToken (s : Scanner) (id : String) : Scanner :=
  match id with
  | "!=" => s.emit_token .BangEqual
  | "!" => s.emit_token .Bang
  | "=" => s.emit_token .Equal
  | "==" => s.emit_token .EqualEqual
  | "<=" => s.emit_token .LessEqual
  | "<" => s.emit_token .Less
  | ">" => s.emit_token .Greater
  | ">=" => s.emit_token .GreaterEqual
  | "&" => s.emit_token .And
  | "&&" => s.emit_token .AndAnd
  | "|" => s.emit_token .Or
  | "||" => s.emit_token .OrOr
  | "/" => s.emit_token .Slash
  | "//" => s.emit_token .SlashSlash
  | "%" => s.emit_token .Mod
  | "%%" => s.emit_token .ModMod
  | "-" => s.emit_token .Minus
  | "+" => s.emit_token .Plus
  | "*" => s.emit_token .Star
  | "|>" => s.emit_token .Pipeline
  | "->" => ({ s with open_block := some s.curr_loc }).emit_token .ThinArrow
  | "false" => s.emit_token .False
  | "true" => s.emit_token .True
  | "fn" => s.emit_token .Fn
  | "for" => s.emit_token .For
  | "while" => s.emit_token .While
  | "return" => s.emit_token .Return
  | "print" => s.emit_token .Print
  | "if" => s.emit_token .If
  | "then" => s.emit_token .Then
  | "else" => s.emit_token .Else
  | _ => s.emit_token (TokenType.Identifier id)

/-- One non-whitespace character's pre-pass in Scanner::scan: resolve a
pending open-block mark (same line: inline body, no block; later line: emit
BeginBlock), then close the levels the current column ends. -/
def Scanner.blockPrePass (s : Scanner) (c : Char) : Except ScanErr Scanner :=
  if !(c == '\n' || c == ' ' || c == '\t' || c == '\r') then do
    let s ←
      match s.open_block with
      | some opening_loc =>
        if s.curr_loc.line == opening_loc.line then
          .ok { s with open_block := none }
        else s.emit_open_block
      | none => .ok s
    if s.block_levels.isEmpty then .ok s else .ok s.emit_closed_blocks
  else .ok s

/-- The per-character dispatch of Scanner::scan (the match on c).  The source
maps the open-brace char to RightBrace and the close-brace char to LeftBrace
(swapped); this is embedded verbatim. -/
def Scanner.dispatch (fuel : Nat) (s : Scanner) (c : Char) : Except ScanErr Scanner :=
  if c == '(' then .ok (s.emit_token .LeftParen)
  else if c == ')' then .ok (s.emit_token .RightParen)
  else if c == Char.ofNat 123 then .ok (s.emit_token .RightBrace)
  else if c == Char.ofNat 125 then .ok (s.emit_token .LeftBrace)
  else if c == ',' then .ok (s.emit_token .Comma)
  else if c == '.' then .ok (s.emit_token .Dot)
  else if c == ';' then .ok (s.emit_token .Semicolon)
  else if c == ':' then .ok (({ s with open_block := some s.curr_loc }).emit_token .Colon)
  else if c == '\n' || c == ' ' || c == '\t' || c == '\r' then .ok s
  else if c == Char.ofNat 34 then s.emit_string fuel (Char.ofNat 34)
  else if c == Char.ofNat 39 then s.emit_string fuel (Char.ofNat 39)
  else if c.isDigit then s.emit_int fuel c
  else do
    let (s1, id) ← s.scan_identifier fuel c
    .ok (s1.keywordToken id)

/-- The while-let loop of Scanner::scan. -/
def scanLoop : Nat → Scanner → Except ScanErr Scanner
  | 0, _ => .error .fuelErr
  | n + 1, s =>
    match s.next with
    | (none, s) => .ok s
    | (some c, s) => do
      let s ← s.blockPrePass c
      let s ← s.dispatch n c
      scanLoop n s

/-- Scanner::scan on a fresh Scanner: scan the whole text, then run
emit_end_of_file, and return the accumulated tokens (drain).  The fuel
stream.length + 1 covers every iteration because each loop step consumes at
least one character. -/
def Scanner.scan (line : String) : Except ScanErr (List Token) := do
  let s := { Scanner.new with stream := line.toList }
  let s ← scanLoop (s.stream.length + 1) s
  let s := s.emit_end_of_file
  .ok s.tokens

/- Value, Expr (parser.rs) and Environment (interpreter.rs).  These are
mutually recursive: a Literal expression holds a Value, and a Lambda value
holds its parameter and body expressions together with the captured
Environment (interpreter.rs stores the environment by value, via
self.environment.clone(), inside the Lambda). -/
mutual
inductive Value where
  | String : String → Value
  | Int : Int → Value
  | Bool : Bool → Value
  | Identifier : String → Value
  | Lambda : List Expr → List Expr → Environment → Value
  deriving Repr

inductive Expr where
  | Binary : Expr → Token → Expr → Expr
  | Unary : Token → Expr → Expr
  | Literal : Value → Expr
  | Group : Expr → Expr
  | FunctionCall : Expr → List Expr → Expr
  | Get : Expr → String → Expr
  | Declaration : Expr → Option Expr → Expr
  | Assignment : Expr → Expr → Expr
  | Block : List Expr → Expr
  | While : Expr → Expr → Expr
  | If : Expr → Expr → Option Expr → Expr
  | BuiltinFunction : Token → Expr
  | Lambda : List Expr → List Expr → Expr
  deriving Repr

inductive Environment where
  | mk : Option Environment → List (String × Value) → Environment
  deriving Repr
end

/-- The parent field of Environment. -/
def Environment.parent : Environment → Option Environment
  | .mk p _ => p

/-- The values field of Environment (the HashMap, embedded as an association
list with at most one entry per key). -/
def Environment.values : Environment → List (String × Value)
  | .mk _ vs => vs

/-- HashMap::get on the association list: the value of the first matching
key. -/
def getA : List (String × Value) → String → Option Value
  | [], _ => none
  | (k, v) :: rest, x => if k == x then some v else getA rest x

/-- HashMap::contains_key on the association list. -/
def containsA : List (String × Value) → String → Bool
  | [], _ => false
  | (k, _) :: rest, x => k == x || containsA rest x

/-- HashMap::insert on the association list: replace the entry if the key is
present, otherwise add a new entry. -/
def insertA : List (String × Value) → String → Value → List (String × Value)
  | [], k, v => [(k, v)]
  | (k1, v1) :: rest, k, v =>
    if k1 == k then (k, v) :: rest else (k1, v1) :: insertA rest k v

/-- Environment::get - look up locally, else delegate to the parent. -/
def Environment.get : Environment → String → Option Value
  | .mk p vs, identifier =>
    match getA vs identifier with
    | some v => some v
    | none =>
      match p with
      | some par => par.get identifier
      | none => none

/-- Environment::set - mutate the binding in the nearest scope that already
defines the name; none models the
panic "Error assigning to undefined variable". -/
def Environment.set : Environment → String → Value → Option Environment
  | .mk p vs, identifier, value =>
    if !(containsA vs identifier) then
      match p with
      | none => none
      | some par =>
        match par.set identifier value with
        | some par2 => some (.mk (some par2) vs)
        | none => none
    else some (.mk p (insertA vs identifier value))

/-- Environment::define - insert or overwrite in the innermost scope only. -/
def Environment.define : Environment → String → Value → Environment
  | .mk p vs, identifier, value => .mk p (insertA vs identifier value)

/-- Parse-time failure: fuelErr is fuel exhaustion of the embedding (in
particular it is the observable outcome, at every fuel, of a source-level
infinite loop); the other constructors are the parser's panic sites. -/
inductive ParseErr where
  | fuelErr
  | expectedColonWhile
  | expectedColonIf
  | expectedBlockElse
  | statementNoToken
  | invalidDeclLHS
  | expectedSemicolon
  | unexpectedEOFDecl
  | unexpectedEOFControl
  | expectedFnCallPipeline
  | expectedNameAfterDot
  | unclosedParen
  | unexpectedToken
  | expectedSemicolonFnArgs
  | expectedBlockFn
  | indexPanic
  deriving BEq, Repr, DecidableEq

/-- The Parser struct. -/
structure Parser where
  tokens : List Token
  index : Nat
  col : Nat
  deriving Repr

/-- Parser::check - does the current token have the given type? -/
def Parser.check (p : Parser) (token_type : TokenType) : Bool :=
  match p.tokens.get? p.index with
  | some token => token.token_type == token_type
  | none => false

/-- Parser::previous - tokens[index - 1]; out-of-bounds (index 0, usize
wrap-around) is an index panic. -/
def Parser.previous (p : Parser) : Except ParseErr Token :=
  if p.index == 0 then .error .indexPanic
  else
    match p.tokens.get? (p.index - 1) with
    | some t => .ok t
    | none => .error .indexPanic

/-- Parser::advance - step the index if not past the end, then return
previous(). -/
def Parser.advance (p : Parser) : Except ParseErr (Token × Parser) := do
  let p1 := if p.index < p.tokens.length then { p with index := p.index + 1 } else p
  let t ← p1.previous
  .ok (t, p1)

/-- Parser::peek. -/
def Parser.peek (p : Parser) : Option Token :=
  p.tokens.get? p.index

/-- Parser::peek_next. -/
def Parser.peek_next (p : Parser) : Option Token :=
  p.tokens.get? (p.index + 1)

/-- Parser::matches - if any of the given types matches the current token,
consume it.  (When a check succeeds the index is in bounds, so advance()
reduces to the increment.) -/
def Parser.matchesT (p : Parser) (ts : List TokenType) : Bool × Parser :=
  if ts.any (fun t => p.check t) then (true, { p with index := p.index + 1 })
  else (false, p)

/-- The pointwise comparison inside Parser::matches_all. -/
def tokensMatchAll : List TokenType → List Token → Bool
  | [], _ => true
  | _ :: _, [] => false
  | t :: ts, tok :: toks => t == tok.token_type && tokensMatchAll ts toks

/-- Parser::matches_all - consume the run of tokens if every type matches in
sequence. -/
def Parser.matches_all (p : Parser) (ts : List TokenType) : Bool × Parser :=
  if p.tokens.length < p.index + ts.length then (false, p)
  else if tokensMatchAll ts (p.tokens.drop p.index) then
    (true, { p with index := p.index + ts.length })
  else (false, p)

/-- Parser::matches_over_line - the token itself, or LineEnd followed by the
token. -/
def Parser.matches_over_line (p : Parser) (t : TokenType) : Bool × Parser :=
  let r := p.matchesT [t]
  if r.1 then r else r.2.matches_all [TokenType.LineEnd, t]

/-- The guard matches!(expr, Expr::Literal(Value::Identifier(_))) used by
Parser::statement. -/
def isIdentifierLiteral : Expr → Bool
  | .Literal (.Identifier _) => true
  | _ => false

/- The recursive-descent functions of parser.rs.  Every function takes a fuel
argument; a body at fuel n + 1 makes all of its calls at fuel n, so the
recursion is structural.  Fuel exhaustion yields ParseErr.fuelErr. -/
mutual
/-- The statement loop of Parser::parse. -/
def parseLoop : Nat → Parser → Except ParseErr (List Expr × Parser)
  | 0, _ => .error .fuelErr
  | n + 1, p =>
    match p.peek with
    | none => .ok ([], p)
    | some _ => do
      let p ← skipLineEnds n p
      let r := p.matchesT [TokenType.EndOfFile]
      if r.1 then .ok ([], r.2)
      else do
        let (e, p) ← statement n r.2
        let (es, p) ← parseLoop n p
        .ok (e :: es, p)

/-- The inner while self.matches(vec![LineEnd]) loop of Parser::parse. -/
def skipLineEnds : Nat → Parser → Except ParseErr Parser
  | 0, _ => .error .fuelErr
  | n + 1, p =>
    let r := p.matchesT [TokenType.LineEnd]
    if r.1 then skipLineEnds n r.2 else .ok r.2

/-- Parser::statement. -/
def statement : Nat → Parser → Except ParseErr (Expr × Parser)
  | 0, _ => .error .fuelErr
  | n + 1, p =>
    match p.peek with
    | none => .error .statementNoToken
    | some tok => do
      let p := { p with col := tok.location.col }
      let (e, p) ← expression n p
      let (expr, p) ←
        match p.peek with
        | some t =>
          if t.token_type == TokenType.Colon then
            if !(isIdentifierLiteral e) then .error .invalidDeclLHS
            else declaration n p e
          else if t.token_type == TokenType.Equal then assignment n p e
          else .ok (e, p)
        | none => .ok (e, p)
      let r1 := p.matches_over_line TokenType.Semicolon
      if r1.1 then .ok (expr, r1.2)
      else
        let r2 := r1.2.matches_over_line TokenType.EndOfFile
        if r2.1 then .ok (expr, r2.2)
        else do
          let prev ← r2.2.previous
          if prev.token_type == TokenType.EndBlock
              || prev.token_type == TokenType.Semicolon then .ok (expr, r2.2)
          else .error .expectedSemicolon

/-- Parser::declaration (the expr argument is the already-parsed LHS). -/
def declaration : Nat → Parser → Expr → Except ParseErr (Expr × Parser)
  | 0, _, _ => .error .fuelErr
  | n + 1, p, expr =>
    let r := p.matchesT [TokenType.Colon]
    if r.1 then do
      let p ← declLoop n r.2
      let r2 := p.matchesT [TokenType.Equal]
      if r2.1 then do
        let (init, p) ← expression n r2.2
        .ok (Expr.Declaration expr (some init), p)
      else .ok (Expr.Declaration expr none, r2.2)
    else .ok (expr, r.2)

/-- The scan-for-Equal loop of Parser::declaration.  The loop body never
advances the index, so when the current token exists and is not Equal the
state repeats and the loop runs forever (fuel exhaustion at every fuel). -/
def declLoop : Nat → Parser → Except ParseErr Parser
  | 0, _ => .error .fuelErr
  | n + 1, p =>
    match p.peek with
    | none => .error .unexpectedEOFDecl
    | some tok =>
      if tok.token_type == TokenType.Equal then .ok p
      else declLoop n p

/-- Parser::assignment (the expr argument is the already-parsed LHS; no
shape check is performed on it). -/
def assignment : Nat → Parser → Expr → Except ParseErr (Expr × Parser)
  | 0, _, _ => .error .fuelErr
  | n + 1, p, expr =>
    let r := p.matchesT [TokenType.Equal]
    if r.1 then do
      let (v, p) ← expression n r.2
      .ok (Expr.Assignment expr v, p)
    else .ok (expr, r.2)

/-- Parser::expression. -/
def expression : Nat → Parser → Except ParseErr (Expr × Parser)
  | 0, _ => .error .fuelErr
  | n + 1, p => control_expression n p

/-- Parser::control_expression. -/
def control_expression : Nat → Parser → Except ParseErr (Expr × Parser)
  | 0, _ => .error .fuelErr
  | n + 1, p =>
    match p.peek with
    | none => .error .unexpectedEOFControl
    | some curr =>
      match curr.token_type with
      | TokenType.While => do
        let (_, p) ← p.advance
        let (cond, p) ← expression n p
        let r := p.matchesT [TokenType.Colon]
        if !r.1 then .error .expectedColonWhile
        else
          let r2 := r.2.matchesT [TokenType.BeginBlock]
          if r2.1 then do
            let (body, p) ← block n r2.2
            .ok (Expr.While cond body, p)
          else do
            let (body, p) ← expression n r2.2
            .ok (Expr.While cond body, p)
      | TokenType.If => do
        let (_, p) ← p.advance
        let (cond, p) ← expression n p
        let r := p.matchesT [TokenType.Colon]
        if !r.1 then .error .expectedColonIf
        else do
          let r2 := r.2.matchesT [TokenType.BeginBlock]
          let (if_branch, p) ←
            if r2.1 then block n r2.2 else expression n r2.2
          let r3 := p.matchesT [TokenType.Else]
          if r3.1 then
            let r4 := r3.2.matchesT [TokenType.Colon]
            if r4.1 then
              let r5 := r4.2.matchesT [TokenType.BeginBlock]
              if !r5.1 then .error .expectedBlockElse
              else do
                let (eb, p) ← block n r5.2
                .ok (Expr.If cond if_branch (some eb), p)
            else do
              let (eb, p) ← expression n r4.2
              .ok (Expr.If cond if_branch (some eb), p)
          else .ok (Expr.If cond if_branch none, r3.2)
      | _ => pipeline n p

/-- Parser::block. -/
def block : Nat → Parser → Except ParseErr (Expr × Parser)
  | 0, _ => .error .fuelErr
  | n + 1, p => do
    let (es, p) ← blockLoop n p
    .ok (Expr.Block es, p)

/-- The statement loop of Parser::block. -/
def blockLoop : Nat → Parser → Except ParseErr (List Expr × Parser)
  | 0, _ => .error .fuelErr
  | n + 1, p =>
    let r := p.matchesT [TokenType.EndBlock]
    if r.1 then .ok ([], r.2)
    else do
      let (e, p) ← statement n r.2
      let (es, p) ← blockLoop n p
      .ok (e :: es, p)

/-- Parser::pipeline. -/
def pipeline : Nat → Parser → Except ParseErr (Expr × Parser)
  | 0, _ => .error .fuelErr
  | n + 1, p => do
    let (e, p) ← logical_or n p
    pipelineLoop n p e

/-- The rewrite loop of Parser::pipeline: each |> parses its right side and
prepends the accumulated expression as the call's first argument; a bare
identifier becomes a one-argument call. -/
def pipelineLoop : Nat → Parser → Expr → Except ParseErr (Expr × Parser)
  | 0, _, _ => .error .fuelErr
  | n + 1, p, expr =>
    let r := p.matches_over_line TokenType.Pipeline
    if !r.1 then .ok (expr, r.2)
    else do
      let (rhs, p) ← logical_or n r.2
      match rhs with
      | Expr.FunctionCall e args => pipelineLoop n p (Expr.FunctionCall e (expr :: args))
      | Expr.Literal (Value.Identifier name) =>
        pipelineLoop n p
          (Expr.FunctionCall (Expr.Literal (Value.Identifier name)) [expr])
      | _ => .error .expectedFnCallPipeline

/-- Parser::logical_or. -/
def logical_or : Nat → Parser → Except ParseErr (Expr × Parser)
  | 0, _ => .error .fuelErr
  | n + 1, p => do
    let (e, p) ← logical_and n p
    logicalOrLoop n p e

/-- The operator loop of Parser::logical_or, including the continuation-line
lookahead (an OrOr may start the next line when that line's first token
column is strictly greater than the statement's anchor column). -/
def logicalOrLoop : Nat → Parser → Expr → Except ParseErr (Expr × Parser)
  | 0, _, _ => .error .fuelErr
  | n + 1, p, expr =>
    let r :=
      let r1 := p.matchesT [TokenType.OrOr]
      if r1.1 then r1
      else
        let lookahead :=
          match r1.2.peek_next with
          | some token => decide (r1.2.col < token.location.col)
          | none => false
        if lookahead then r1.2.matches_all [TokenType.LineEnd, TokenType.OrOr]
        else (false, r1.2)
    if !r.1 then .ok (expr, r.2)
    else do
      let op ← r.2.previous
      let (rhs, p) ← logical_and n r.2
      logicalOrLoop n p (Expr.Binary expr op rhs)

/-- Parser::logical_and. -/
def logical_and : Nat → Parser → Except ParseErr (Expr × Parser)
  | 0, _ => .error .fuelErr
  | n + 1, p => do
    let (e, p) ← equality n p
    logicalAndLoop n p e

/-- The operator loop of Parser::logical_and, with the same continuation-line
lookahead as logical_or. -/
def logicalAndLoop : Nat → Parser → Expr → Except ParseErr (Expr × Parser)
  | 0, _, _ => .error .fuelErr
  | n + 1, p, expr =>
    let r :=
      let r1 := p.matchesT [TokenType.AndAnd]
      if r1.1 then r1
      else
        let lookahead :=
          match r1.2.peek_next with
          | some token => decide (r1.2.col < token.location.col)
          | none => false
        if lookahead then r1.2.matches_all [TokenType.LineEnd, TokenType.AndAnd]
        else (false, r1.2)
    if !r.1 then .ok (expr, r.2)
    else do
      let op ← r.2.previous
      let (rhs, p) ← equality n r.2
      logicalAndLoop n p (Expr.Binary expr op rhs)

/-- Parser::equality. -/
def equality : Nat → Parser → Except ParseErr (Expr × Parser)
  | 0, _ => .error .fuelErr
  | n + 1, p => do
    let (e, p) ← comparison n p
    equalityLoop n p e

/-- The operator loop of Parser::equality. -/
def equalityLoop : Nat → Parser → Expr → Except ParseErr (Expr × Parser)
  | 0, _, _ => .error .fuelErr
  | n + 1, p, expr =>
    let r := p.matchesT [TokenType.EqualEqual, TokenType.BangEqual]
    if !r.1 then .ok (expr, r.2)
    else do
      let op ← r.2.previous
      let (rhs, p) ← comparison n r.2
      equalityLoop n p (Expr.Binary expr op rhs)

/-- Parser::comparison. -/
def comparison : Nat → Parser → Except ParseErr (Expr × Parser)
  | 0, _ => .error .fuelErr
  | n + 1, p => do
    let (e, p) ← term n p
    comparisonLoop n p e

/-- The operator loop of Parser::comparison. -/
def comparisonLoop : Nat → Parser → Expr → Except ParseErr (Expr × Parser)
  | 0, _, _ => .error .fuelErr
  | n + 1, p, expr =>
    let r := p.matchesT
      [TokenType.Greater, TokenType.GreaterEqual, TokenType.Less, TokenType.LessEqual]
    if !r.1 then .ok (expr, r.2)
    else do
      let op ← r.2.previous
      let (rhs, p) ← term n r.2
      comparisonLoop n p (Expr.Binary expr op rhs)

/-- Parser::term. -/
def term : Nat → Parser → Except ParseErr (Expr × Parser)
  | 0, _ => .error .fuelErr
  | n + 1, p => do
    let (e, p) ← factor n p
    termLoop n p e

/-- The operator loop of Parser::term. -/
def termLoop : Nat → Parser → Expr → Except ParseErr (Expr × Parser)
  | 0, _, _ => .error .fuelErr
  | n + 1, p, expr =>
    let r := p.matchesT [TokenType.Minus, TokenType.Plus]
    if !r.1 then .ok (expr, r.2)
    else do
      let op ← r.2.previous
      let (rhs, p) ← factor n r.2
      termLoop n p (Expr.Binary expr op rhs)

/-- Parser::factor. -/
def factor : Nat → Parser → Except ParseErr (Expr × Parser)
  | 0, _ => .error .fuelErr
  | n + 1, p => do
    let (e, p) ← unary n p
    factorLoop n p e

/-- The operator loop of Parser::factor. -/
def factorLoop : Nat → Parser → Expr → Except ParseErr (Expr × Parser)
  | 0, _, _ => .error .fuelErr
  | n + 1, p, expr =>
    let r := p.matchesT
      [TokenType.Star, TokenType.Slash, TokenType.SlashSlash, TokenType.Mod]
    if !r.1 then .ok (expr, r.2)
    else do
      let op ← r.2.previous
      let (rhs, p) ← unary n r.2
      factorLoop n p (Expr.Binary expr op rhs)

/-- Parser::unary. -/
def unary : Nat → Parser → Except ParseErr (Expr × Parser)
  | 0, _ => .error .fuelErr
  | n + 1, p =>
    let r := p.matchesT [TokenType.Minus, TokenType.Bang]
    if r.1 then do
      let op ← r.2.previous
      let (rhs, p) ← unary n r.2
      .ok (Expr.Unary op rhs, p)
    else call n r.2

/-- Parser::call - a Lambda primary returns directly; otherwise loop over
field accesses (Dot) and bang-calls. -/
def call : Nat → Parser → Except ParseErr (Expr × Parser)
  | 0, _ => .error .fuelErr
  | n + 1, p => do
    let (e, p) ← primary n p
    match e with
    | Expr.Lambda _ _ => .ok (e, p)
    | _ => callLoop n p e

/-- The Dot/Bang loop of Parser::call.  On a bang-call of a field access the
field name becomes the callee and the receiver the first argument. -/
def callLoop : Nat → Parser → Expr → Except ParseErr (Expr × Parser)
  | 0, _, _ => .error .fuelErr
  | n + 1, p, expr =>
    let r := p.matchesT [TokenType.Dot]
    if r.1 then do
      let (t, p) ← r.2.advance
      match t.token_type with
      | TokenType.Identifier name => callLoop n p (Expr.Get expr name)
      | _ => .error .expectedNameAfterDot
    else
      let r2 := r.2.matchesT [TokenType.Bang]
      if r2.1 then do
        let (args, p) ← argumentsP n r2.2
        match expr with
        | Expr.Get lhs name =>
          callLoop n p
            (Expr.FunctionCall (Expr.Literal (Value.Identifier name)) (lhs :: args))
        | _ => callLoop n p (Expr.FunctionCall expr args)
      else .ok (expr, r2.2)

/-- Parser::arguments. -/
def argumentsP : Nat → Parser → Except ParseErr (List Expr × Parser)
  | 0, _ => .error .fuelErr
  | n + 1, p =>
    let r := p.matchesT [TokenType.BeginBlock]
    if r.1 then argsBlockLoop n r.2
    else argsPlainLoop n r.2

/-- The block-form argument loop of Parser::arguments: arguments until
EndBlock, each terminated by a semicolon. -/
def argsBlockLoop : Nat → Parser → Except ParseErr (List Expr × Parser)
  | 0, _ => .error .fuelErr
  | n + 1, p =>
    let r := p.matchesT [TokenType.EndBlock]
    if r.1 then .ok ([], r.2)
    else do
      let (a, p) ← logical_or n r.2
      let r2 := p.matchesT [TokenType.Semicolon]
      if r2.1 then do
        let (rest, p) ← argsBlockLoop n r2.2
        .ok (a :: rest, p)
      else do
        let prev ← r2.2.previous
        if prev.token_type == TokenType.Semicolon then do
          let (rest, p) ← argsBlockLoop n r2.2
          .ok (a :: rest, p)
        else .error .expectedSemicolonFnArgs

/-- The plain argument loop of Parser::arguments: arguments until a consumed
semicolon or a Pipeline token is reached. -/
def argsPlainLoop : Nat → Parser → Except ParseErr (List Expr × Parser)
  | 0, _ => .error .fuelErr
  | n + 1, p =>
    let r := p.matchesT [TokenType.Semicolon]
    if r.1 then .ok ([], r.2)
    else
      let isPipe :=
        match r.2.peek with
        | some t => t.token_type == TokenType.Pipeline
        | none => false
      if isPipe then .ok ([], r.2)
      else do
        let (a, p) ← logical_or n r.2
        let (rest, p) ← argsPlainLoop n p
        .ok (a :: rest, p)

/-- Parser::primary. -/
def primary : Nat → Parser → Except ParseErr (Expr × Parser)
  | 0, _ => .error .fuelErr
  | n + 1, p =>
    let rf := p.matchesT [TokenType.False]
    if rf.1 then .ok (Expr.Literal (Value.Bool false), rf.2)
    else
      let rt := rf.2.matchesT [TokenType.True]
      if rt.1 then .ok (Expr.Literal (Value.Bool true), rt.2)
      else do
        let (t, p) ← rt.2.advance
        match t.token_type with
        | TokenType.String value => .ok (Expr.Literal (Value.String value), p)
        | TokenType.Identifier value => .ok (Expr.Literal (Value.Identifier value), p)
        | TokenType.Int value => .ok (Expr.Literal (Value.Int value), p)
        | TokenType.LeftParen => do
          let (e, p) ← expression n p
          let (t2, p) ← p.advance
          if t2.token_type == TokenType.RightParen then .ok (Expr.Group e, p)
          else .error .unclosedParen
        | TokenType.Plus => .ok (Expr.Literal (Value.Identifier ("+")), p)
        | TokenType.Fn => function_decl n p
        | TokenType.Print => do
          let prev ← p.previous
          .ok (Expr.BuiltinFunction prev, p)
        | _ => .error .unexpectedToken

/-- Parser::function_decl. -/
def function_decl : Nat → Parser → Except ParseErr (Expr × Parser)
  | 0, _ => .error .fuelErr
  | n + 1, p => do
    let (args, p) ← fnParamsLoop n p
    let r := p.matchesT [TokenType.BeginBlock]
    if r.1 then do
      let (b, p) ← block n r.2
      match b with
      | Expr.Block exprs => .ok (Expr.Lambda args exprs, p)
      | _ => .error .expectedBlockFn
    else do
      let (e, p) ← expression n r.2
      .ok (Expr.Lambda args [e], p)

/-- The parameter loop of Parser::function_decl: primaries until the thin
arrow. -/
def fnParamsLoop : Nat → Parser → Except ParseErr (List Expr × Parser)
  | 0, _ => .error .fuelErr
  | n + 1, p =>
    let r := p.matchesT [TokenType.ThinArrow]
    if r.1 then .ok ([], r.2)
    else do
      let (a, p) ← primary n r.2
      let (rest, p) ← fnParamsLoop n p
      .ok (a :: rest, p)
end

/-- Parser::parse on a fresh Parser over the given tokens, returning the
statement sequence. -/
def parse (fuel : Nat) (tokens : List Token) : Except ParseErr (List Expr) := do
  let p : Parser := { tokens := tokens, index := 0, col := 0 }
  let (res, _) ← parseLoop fuel p
  .ok res

/-- Runtime failure: fuelErr is fuel exhaustion of the embedding (source-level
non-termination); the other constructors are the interpreter's panic and
expect sites. -/
inductive RTErr where
  | fuelErr
  | undefinedVariable
  | assignUndefined
  | invalidAssignLHS
  | invalidDeclLHSRuntime
  | declNoInit
  | notAFunction
  | invalidParam
  | emptyFnBody
  | unknownBuiltin
  | ifNoElse
  | noParentEnv
  | typeErrorUnary
  | typeErrorBinary
  | divByZeroPanic
  | todoExpr
  deriving BEq, Repr, DecidableEq

/-- The Interpreter struct.  The Write sink is embedded as the list of
argument vectors printed so far (the writeln! formatting itself is host
I/O and out of scope). -/
structure Interpreter where
  environment : Environment
  output : List (List Value)
  deriving Repr

/-- Interpreter::new on a fresh sink: default (root) environment, empty
output. -/
def Interpreter.new : Interpreter :=
  { environment := .mk none [], output := [] }

/-- Interpreter::resolve_value - an Identifier value is looked up in the
current environment (panic "Undefined Variable" when absent); every other
value passes through. -/
def resolve_value (st : Interpreter) (value : Value) : Except RTErr Value :=
  match value with
  | .Identifier identifier =>
    match st.environment.get identifier with
    | some v => .ok v
    | none => .error .undefinedVariable
  | v => .ok v

/-- The per-argument resolve_value map inside Interpreter::interpret_builtin. -/
def resolveList (st : Interpreter) : List Value → Except RTErr (List Value)
  | [] => .ok []
  | v :: vs =>
    match resolve_value st v with
    | .error err => .error err
    | .ok rv =>
      match resolveList st vs with
      | .error err => .error err
      | .ok rvs => .ok (rv :: rvs)

/- The evaluator functions of interpreter.rs.  As in the parser, every
function takes a fuel argument and a body at fuel n + 1 calls at fuel n;
results are written with explicit matches (no monadic bind) so that equations
rewrite cleanly. -/
mutual
/-- Interpreter::interpret - evaluate a statement sequence, resolving each
statement's value; one value per statement. -/
def interpret : Nat → Interpreter → List Expr → Except RTErr (List Value × Interpreter)
  | 0, _, _ => .error .fuelErr
  | _ + 1, st, [] => .ok ([], st)
  | n + 1, st, e :: es =>
    match interpret_expr n st e with
    | .error err => .error err
    | .ok (v, st1) =>
      match resolve_value st1 v with
      | .error err => .error err
      | .ok rv =>
        match interpret n st1 es with
        | .error err => .error err
        | .ok (vs, st2) => .ok (rv :: vs, st2)

/-- Interpreter::interpret_expr.  The Block arm pushes a fresh child scope,
runs the statements (discarding their values), restores the parent scope and
yields Bool false; the Lambda arm captures a copy of the current environment
(self.environment.clone()); the Get arm is the todo!() catch-all. -/
def interpret_expr : Nat → Interpreter → Expr → Except RTErr (Value × Interpreter)
  | 0, _, _ => .error .fuelErr
  | n + 1, st, e =>
    match e with
    | .Literal value => .ok (value, st)
    | .Group g => interpret_expr n st g
    | .Binary lhs op rhs => interpret_binary n st lhs op rhs
    | .Unary op g => interpret_unary n st op g
    | .Declaration lhs init => interpret_decl n st lhs init
    | .Assignment lhs value => interpret_assignment n st lhs value
    | .While cond body => interpret_while n st cond body
    | .Block exprs =>
      match interpret n { st with environment := .mk (some st.environment) [] } exprs with
      | .error err => .error err
      | .ok (_, st1) =>
        match st1.environment.parent with
        | some parentEnv => .ok (.Bool false, { st1 with environment := parentEnv })
        | none => .error .noParentEnv
    | .If cond tb fb => interpret_if n st cond tb fb
    | .FunctionCall id args => interpret_call n st id args
    | .Lambda params body => .ok (.Lambda params body st.environment, st)
    | .Get _ _ => .error .todoExpr
    | .BuiltinFunction _ => .error .todoExpr

/-- Interpreter::interpret_call - builtins dispatch on the unevaluated
callee; otherwise the callee must resolve to a Lambda, the parameters are
bound (zip: extra parameters stay unbound) in a fresh frame over the
captured closure, the body runs there, and the caller's environment is
restored afterwards (so the closure copy mutated by the body is discarded). -/
def interpret_call : Nat → Interpreter → Expr → List Expr → Except RTErr (Value × Interpreter)
  | 0, _, _, _ => .error .fuelErr
  | n + 1, st, id, args =>
    match id with
    | .BuiltinFunction builtin => interpret_builtin n st builtin args
    | _ =>
      match interpret_expr n st id with
      | .error err => .error err
      | .ok (idv, st1) =>
        match resolve_value st1 idv with
        | .error err => .error err
        | .ok func =>
          match func with
          | .Lambda params body closure =>
            match bindParams n st1 params args (.mk (some closure) []) with
            | .error err => .error err
            | .ok (new_env, st2) =>
              match interpret n { st2 with environment := new_env } body with
              | .error err => .error err
              | .ok (vals, st3) =>
                match vals.getLast? with
                | some res => .ok (res, { st3 with environment := st2.environment })
                | none => .error .emptyFnBody
          | _ => .error .notAFunction

/-- The params.zip(args).for_each binding loop of Interpreter::interpret_call:
each parameter expression must evaluate to an Identifier; the argument is
evaluated and resolved in the caller's environment and defined in the new
frame. -/
def bindParams : Nat → Interpreter → List Expr → List Expr → Environment →
    Except RTErr (Environment × Interpreter)
  | 0, _, _, _, _ => .error .fuelErr
  | _ + 1, st, [], _, acc => .ok (acc, st)
  | _ + 1, st, _ :: _, [], acc => .ok (acc, st)
  | n + 1, st, param :: ps, arg :: rest, acc =>
    match interpret_expr n st param with
    | .error err => .error err
    | .ok (pv, st1) =>
      match pv with
      | .Identifier pname =>
        match interpret_expr n st1 arg with
        | .error err => .error err
        | .ok (av, st2) =>
          match resolve_value st2 av with
          | .error err => .error err
          | .ok rav => bindParams n st2 ps rest (acc.define pname rav)
      | _ => .error .invalidParam

/-- Interpreter::interpret_builtin - evaluate and resolve the arguments, then
Print writes them to the sink; any other builtin token is the
unknown-builtin panic.  Returns Bool false. -/
def interpret_builtin : Nat → Interpreter → Token → List Expr →
    Except RTErr (Value × Interpreter)
  | 0, _, _, _ => .error .fuelErr
  | n + 1, st, token, args =>
    match interpret n st args with
    | .error err => .error err
    | .ok (argvals, st1) =>
      match resolveList st1 argvals with
      | .error err => .error err
      | .ok resolved =>
        match token.token_type with
        | TokenType.Print => .ok (.Bool false, { st1 with output := st1.output ++ [resolved] })
        | _ => .error .unknownBuiltin

/-- Interpreter::interpret_assignment - the LHS must evaluate to an
Identifier (panic otherwise), the RHS is evaluated and resolved, the binding
is mutated via Environment::set, and the assigned value is the result. -/
def interpret_assignment : Nat → Interpreter → Expr → Expr →
    Except RTErr (Value × Interpreter)
  | 0, _, _, _ => .error .fuelErr
  | n + 1, st, lhs, value =>
    match interpret_expr n st lhs with
    | .error err => .error err
    | .ok (lv, st1) =>
      match lv with
      | .Identifier identifier =>
        match interpret_expr n st1 value with
        | .error err => .error err
        | .ok (v, st2) =>
          match resolve_value st2 v with
          | .error err => .error err
          | .ok rv =>
            match st2.environment.set identifier rv with
            | some env2 => .ok (rv, { st2 with environment := env2 })
            | none => .error .assignUndefined
      | _ => .error .invalidAssignLHS

/-- Interpreter::interpret_if - the condition is evaluated and resolved once;
Bool(true) selects the then-branch, every other value selects the else
branch, whose absence is the missing-else panic. -/
def interpret_if : Nat → Interpreter → Expr → Expr → Option Expr →
    Except RTErr (Value × Interpreter)
  | 0, _, _, _, _ => .error .fuelErr
  | n + 1, st, cond, true_branch, false_branch =>
    match interpret_expr n st cond with
    | .error err => .error err
    | .ok (cv, st1) =>
      match resolve_value st1 cv with
      | .error err => .error err
      | .ok rcv =>
        match rcv with
        | .Bool true => interpret_expr n st1 true_branch
        | _ =>
          match false_branch with
          | some fb => interpret_expr n st1 fb
          | none => .error .ifNoElse

/-- Interpreter::interpret_while, restructured from Rust's pre-test loop into
the equivalent recursion: evaluate and resolve the condition; on Bool(true)
run the body and recurse, otherwise yield Bool false. -/
def interpret_while : Nat → Interpreter → Expr → Expr →
    Except RTErr (Value × Interpreter)
  | 0, _, _, _ => .error .fuelErr
  | n + 1, st, cond, body =>
    match interpret_expr n st cond with
    | .error err => .error err
    | .ok (cv, st1) =>
      match resolve_value st1 cv with
      | .error err => .error err
      | .ok rcv =>
        match rcv with
        | .Bool true =>
          match interpret_expr n st1 body with
          | .error err => .error err
          | .ok (_, st2) => interpret_while n st2 cond body
        | _ => .ok (.Bool false, st1)

/-- Interpreter::interpret_decl - the initializer (mandatory: its absence is
the expect panic) is evaluated and resolved first, then the LHS must evaluate
to an Identifier, the binding is defined in the innermost scope, and the
initializer's value is the result. -/
def interpret_decl : Nat → Interpreter → Expr → Option Expr →
    Except RTErr (Value × Interpreter)
  | 0, _, _, _ => .error .fuelErr
  | n + 1, st, lhs, init =>
    match init with
    | none => .error .declNoInit
    | some initE =>
      match interpret_expr n st initE with
      | .error err => .error err
      | .ok (iv, st1) =>
        match resolve_value st1 iv with
        | .error err => .error err
        | .ok riv =>
          match interpret_expr n st1 lhs with
          | .error err => .error err
          | .ok (lv, st2) =>
            match lv with
            | .Identifier identifier =>
              .ok (riv, { st2 with environment := st2.environment.define identifier riv })
            | _ => .error .invalidDeclLHSRuntime

/-- Interpreter::interpret_unary - minus negates an Int, bang negates a Bool,
anything else is a type-error panic. -/
def interpret_unary : Nat → Interpreter → Token → Expr →
    Except RTErr (Value × Interpreter)
  | 0, _, _, _ => .error .fuelErr
  | n + 1, st, op, e =>
    match interpret_expr n st e with
    | .error err => .error err
    | .ok (v, st1) =>
      match resolve_value st1 v with
      | .error err => .error err
      | .ok rv =>
        match op.token_type, rv with
        | TokenType.Minus, .Int x => .ok (.Int (wrap32 (-x)), st1)
        | TokenType.Bang, .Bool x => .ok (.Bool (!x), st1)
        | _, _ => .error .typeErrorUnary

/-- Interpreter::interpret_binary - both operands are evaluated and resolved
left to right, then dispatched on (operator, lhs, rhs); // is Rust's
truncating division and % Rust's truncating remainder (division by zero
panics); any other combination is a type-error panic. -/
def interpret_binary : Nat → Interpreter → Expr → Token → Expr →
    Except RTErr (Value × Interpreter)
  | 0, _, _, _, _ => .error .fuelErr
  | n + 1, st, lhs, op, rhs =>
    match interpret_expr n st lhs with
    | .error err => .error err
    | .ok (lv, st1) =>
      match resolve_value st1 lv with
      | .error err => .error err
      | .ok l =>
        match interpret_expr n st1 rhs with
        | .error err => .error err
        | .ok (rv, st2) =>
          match resolve_value st2 rv with
          | .error err => .error err
          | .ok r =>
            match op.token_type, l, r with
            | TokenType.Minus, .Int a, .Int b => .ok (.Int (wrap32 (a - b)), st2)
            | TokenType.Plus, .Int a, .Int b => .ok (.Int (wrap32 (a + b)), st2)
            | TokenType.Star, .Int a, .Int b => .ok (.Int (wrap32 (a * b)), st2)
            | TokenType.Mod, .Int a, .Int b =>
              if b == 0 then .error .divByZeroPanic
              else .ok (.Int (wrap32 (Int.tmod a b)), st2)
            | TokenType.SlashSlash, .Int a, .Int b =>
              if b == 0 then .error .divByZeroPanic
              else .ok (.Int (wrap32 (Int.tdiv a b)), st2)
            | TokenType.AndAnd, .Bool a, .Bool b => .ok (.Bool (a && b), st2)
            | TokenType.OrOr, .Bool a, .Bool b => .ok (.Bool (a || b), st2)
            | TokenType.Greater, .Int a, .Int b => .ok (.Bool (decide (b < a)), st2)
            | TokenType.GreaterEqual, .Int a, .Int b => .ok (.Bool (decide (b ≤ a)), st2)
            | TokenType.Less, .Int a, .Int b => .ok (.Bool (decide (a < b)), st2)
            | TokenType.LessEqual, .Int a, .Int b => .ok (.Bool (decide (a ≤ b)), st2)
            | TokenType.EqualEqual, .Bool a, .Bool b => .ok (.Bool (a == b), st2)
            | TokenType.EqualEqual, .Int a, .Int b => .ok (.Bool (a == b), st2)
            | TokenType.EqualEqual, .String a, .String b => .ok (.Bool (a == b), st2)
            | TokenType.BangEqual, .Bool a, .Bool b => .ok (.Bool (a != b), st2)
            | TokenType.BangEqual, .Int a, .Int b => .ok (.Bool (a != b), st2)
            | TokenType.BangEqual, .String a, .String b => .ok (.Bool (a != b), st2)
            | _, _, _ => .error .typeErrorBinary
end

/-- The scope chain of an environment as a list of frames, innermost first. -/
def Environment.chain : Environment → List (List (String × Value))
  | .mk p vs =>
    vs :: (match p with
           | some par => par.chain
           | none => [])

/-- Specification-side description of assignment, following the spec's words:
find the nearest scope in the chain (starting from the innermost) that
already defines the name and mutate that binding in place; if none defines
it, fail. -/
def setChainSpec : List (List (String × Value)) → String → Value →
    Option (List (List (String × Value)))
  | [], _, _ => none
  | f :: rest, x, v =>
    if containsA f x then some (insertA f x v :: rest)
    else
      match setChainSpec rest x v with
      | some rest2 => some (f :: rest2)
      | none => none

/-- A getA miss is exactly a containsA miss. -/
theorem getA_none_iff : ∀ (l : List (String × Value)) (x : String),
    (getA l x = none) ↔ (containsA l x = false) := by
  intro l x
  induction l with
  | nil => simp [getA, containsA]
  | cons kv rest ih =>
    obtain ⟨k, v⟩ := kv
    by_cases h : k == x <;> simp [getA, containsA, h, ih]

/-- Environment::set refines the spec-side chain description. -/
theorem set_map_chain : ∀ (env : Environment) (x : String) (v : Value),
    (env.set x v).map Environment.chain = setChainSpec env.chain x v
  | .mk none vs, x, v => by
    by_cases h : containsA vs x <;>
      simp [Environment.set, Environment.chain, setChainSpec, h]
  | .mk (some par) vs, x, v => by
    have ih := set_map_chain par x v
    by_cases h : containsA vs x
    · simp [Environment.set, Environment.chain, setChainSpec, h]
    · simp only [Environment.set, Environment.chain, setChainSpec, h, Bool.not_false,
        if_true, if_false, Bool.false_eq_true, ite_false]
      cases hp : Environment.set par x v with
      | none =>
        rw [hp] at ih
        simp only [Option.map_none'] at ih
        simp [← ih]
      | some par2 =>
        rw [hp] at ih
        simp only [Option.map_some'] at ih
        simp [← ih, Environment.chain]

/-- Environment::set fails exactly when no scope in the chain defines the
name (assignment never creates a binding). -/
theorem set_none_iff : ∀ (env : Environment) (x : String) (v : Value),
    (env.set x v = none) ↔ (env.get x = none)
  | .mk none vs, x, v => by
    by_cases h : containsA vs x
    · have hg : getA vs x ≠ none := by
        rw [Ne, getA_none_iff]
        simp [h]
      cases hga : getA vs x with
      | none => exact absurd hga hg
      | some w => simp [Environment.set, Environment.get, h, hga]
    · have hg : getA vs x = none := (getA_none_iff vs x).mpr (by simp [h])
      simp [Environment.set, Environment.get, h, hg]
  | .mk (some par) vs, x, v => by
    have ih := set_none_iff par x v
    by_cases h : containsA vs x
    · have hg : getA vs x ≠ none := by
        rw [Ne, getA_none_iff]
        simp [h]
      cases hga : getA vs x with
      | none => exact absurd hga hg
      | some w => simp [Environment.set, Environment.get, h, hga]
    · have hg : getA vs x = none := (getA_none_iff vs x).mpr (by simp [h])
      cases hp : Environment.set par x v with
      | none =>
        rw [hp] at ih
        simp [Environment.set, Environment.get, h, hg, hp, ← ih]
      | some par2 =>
        rw [hp] at ih
        simp [Environment.set, Environment.get, h, hg, hp]
        intro hgp
        rw [← ih] at hgp
        exact absurd hgp (by simp [hp])

/-- Environment::define rewrites only the innermost frame of the chain. -/
theorem define_chain : ∀ (env : Environment) (x : String) (v : Value),
    (env.define x v).chain = insertA env.values x v :: env.chain.tail
  | .mk p vs, x, v => by cases p <;> rfl

/-- A token with the given type at the zero location, for token-level parser
inputs. -/
def tok (t : TokenType) : Token :=
  { token_type := t, location := { line := 0, col := 0, index := 0 } }

/-- Shorthand for an identifier-literal expression. -/
def idE (s : String) : Expr := Expr.Literal (Value.Identifier s)

/-- Shorthand for an integer-literal expression. -/
def intE (n : Int) : Expr := Expr.Literal (Value.Int n)

/-- Shorthand for a print-builtin call. -/
def printE (e : Expr) : Expr := Expr.FunctionCall (Expr.BuiltinFunction (tok .Print)) [e]

/-- The statement a = a + 1. -/
def incA : Expr := Expr.Assignment (idE "a") (Expr.Binary (idE "a") (tok .Plus) (intE 1))

/-- The nested-block shadowing program of the repository's interprets_scopes
test: a := 0; two nested blocks that each increment, print, and re-declare a;
prints around every step. -/
def scopesProg : List Expr :=
  [ Expr.Declaration (idE "a") (some (intE 0))
  , Expr.If (Expr.Literal (Value.Bool true))
      (Expr.Block
        [ printE (idE "a"), incA, printE (idE "a")
        , Expr.Declaration (idE "a") (some (intE 10)), printE (idE "a")
        , Expr.If (Expr.Literal (Value.Bool true))
            (Expr.Block
              [ printE (idE "a"), incA, printE (idE "a")
              , Expr.Declaration (idE "a") (some (intE 100)), printE (idE "a") ])
            none
        , printE (idE "a") ])
      none
  , printE (idE "a") ]

/-- Claim C1: a declaration (define) creates or overwrites the binding in the
innermost scope only, never mutating a same-named binding in an enclosing
scope (only the head frame of the chain changes); an assignment (set) mutates
the binding in the nearest enclosing scope that already defines the name, as
described by the spec-side setChainSpec, and fails exactly when no scope in
the chain defines it (no implicit creation).  The concrete conjunct runs the
nested-block shadowing program and observes the print sequence
0,1,10,10,11,100,11,1 of the repository's interprets_scopes test. -/
theorem claim_C1 : ∀ (env : Environment) (x : String) (v : Value),
    ((env.define x v).chain = insertA env.values x v :: env.chain.tail)
    ∧ ((env.set x v).map Environment.chain = setChainSpec env.chain x v)
    ∧ ((env.set x v = none) ↔ (env.get x = none))
    ∧ ((interpret 40 Interpreter.new scopesProg).map (fun r => r.2.output) =
        .ok [[Value.Int 0], [Value.Int 1], [Value.Int 10], [Value.Int 10],
             [Value.Int 11], [Value.Int 100], [Value.Int 11], [Value.Int 1]]) :=
  fun env x v => ⟨define_chain env x v, set_map_chain env x v, set_none_iff env x v, rfl⟩

/-- The statement x = x + 1. -/
def incX : Expr := Expr.Assignment (idE "x") (Expr.Binary (idE "x") (tok .Plus) (intE 1))

/-- The closure-mutation program of the repository's
interprets_function_closures test, reduced to its core:
x := 0; a := fn -> x = x + 1; a!; a!; x. -/
def closureProg : List Expr :=
  [ Expr.Declaration (idE "x") (some (intE 0))
  , Expr.Declaration (idE "a") (some (Expr.Lambda [] [incX]))
  , Expr.FunctionCall (idE "a") []
  , Expr.FunctionCall (idE "a") []
  , idE "x" ]

/-- Claim C2 (evaluation at the failing input): in the closure-mutation
program, the first call of the closure yields Int 1 but the second call
yields Int 1 again and the final read of x yields Int 0 - the mutation made
by the first call is not observed by the second call, because interpret_call
runs the body against a clone of the captured environment and restores the
caller's environment afterwards.  The repository's
interprets_function_closures test and the spec require the second call to
observe the first call's mutation (yielding 2). -/
theorem claim_C2_eval :
    (interpret 30 Interpreter.new closureProg).map (fun r => r.1.drop 2) =
      .ok [Value.Int 1, Value.Int 1, Value.Int 0] := rfl

/-- Claim C3 (counterexample): scanning a two-line block whose third line is
indented exactly at the open level's column (level 3, first-token column 3)
emits no EndBlock at all - the stream is Identifier a, Colon, BeginBlock,
Identifier b, Identifier c.  Under the claim, a level whose column is greater
than or equal to the line's first-token column must be closed, which would
put an EndBlock before Identifier c. -/
theorem claim_C3_counterexample :
    (Scanner.scan ("a:\n  b\n  c")).map (List.map Token.token_type) =
      .ok [.Identifier ("a"), .Colon, .BeginBlock, .Identifier ("b"), .Identifier ("c")] := rfl

/-- Claim C3 (amended): on each new line the scanner closes exactly the open
levels whose column is STRICTLY GREATER than the line's first-token column,
one EndBlock per closed level, stopping as soon as the stack top is less than
or equal to that column (a line indented exactly at the block's column
continues the block; only a strictly shallower line closes it).  The loop
body is characterised in full, and the concrete conjunct shows a strictly
shallower line producing the EndBlock. -/
theorem claim_C3 : ∀ (levels : List Nat) (col : Nat),
    (emitClosedLoop levels col =
      (levels.dropWhile (fun l => decide (col < l)),
        (levels.takeWhile (fun l => decide (col < l))).length))
    ∧ ((Scanner.scan ("a:\n  b\nc")).map (List.map Token.token_type) =
        .ok [.Identifier ("a"), .Colon, .BeginBlock, .Identifier ("b"),
             .EndBlock, .Identifier ("c")]) := by
  intro levels col
  refine ⟨?_, rfl⟩
  induction levels with
  | nil => simp [emitClosedLoop]
  | cons level rest ih =>
    by_cases h : level ≤ col
    · have hd : (decide (col < level)) = false := by simp; omega
      simp [emitClosedLoop, h, hd]
    · have hd : (decide (col < level)) = true := by simp; omega
      simp [emitClosedLoop, h, hd, ih]

/-- Claim C5 (evaluation at the failing input): scanning the text x yields
the single token Identifier x - the scanner never emits an EndOfFile token
(emit_end_of_file only closes open blocks), so the token sequence does not
end in an end-of-file token as the contract requires and the parser
expects. -/
theorem claim_C5_eval :
    Scanner.scan ("x") =
      .ok [{ token_type := TokenType.Identifier ("x"),
             location := { line := 0, col := 1, index := 1 } }] := rfl

/-- The token sequence the scanner produces for the source 1 |> f a; . -/
def c4tokens : List Token :=
  [ { token_type := TokenType.Int 1, location := { line := 0, col := 1, index := 1 } }
  , { token_type := TokenType.Pipeline, location := { line := 0, col := 4, index := 4 } }
  , { token_type := TokenType.Identifier ("f"), location := { line := 0, col := 6, index := 6 } }
  , { token_type := TokenType.Identifier ("a"), location := { line := 0, col := 8, index := 8 } }
  , { token_type := TokenType.Semicolon, location := { line := 0, col := 9, index := 9 } } ]

set_option maxHeartbeats 1000000 in
/-- Claim C4 (counterexample): the fragment x |> f a (here 1 |> f a;) is a
fatal parse error, not the call f(x, a): the right side of |> parses only the
bare identifier f (juxtaposed arguments are not parsed outside the bang call
syntax), the pipeline rewrites to f(1), and the leftover token a then fails
the statement-terminator check. -/
theorem claim_C4_counterexample :
    (Scanner.scan ("1 |> f a;") = .ok c4tokens)
    ∧ (parse 30 c4tokens = .error ParseErr.expectedSemicolon) := by
  have h1 : Scanner.scan ("1 |> f a;") = .ok c4tokens := by rfl
  have h2 : parse 30 c4tokens = .error ParseErr.expectedSemicolon := by rfl
  exact ⟨h1, h2⟩

/-- The token sequence the witness drives through the pipeline rewrite: the
|> token followed by the call f! 2 and a semicolon. -/
def c4wtokens : List Token :=
  [tok .Pipeline, tok (.Identifier ("f")), tok .Bang, tok (.Int 2), tok .Semicolon]

set_option maxHeartbeats 2000000 in
/-- Claim C4 (amended): the pipeline operator prepends its left operand as
the first argument of the call parsed on its right, universally: whenever a
|> token is consumed and its right side parses to a call FunctionCall(e,
args), the rewrite continues with FunctionCall(e, x :: args) for EVERY left
operand x, callee e and argument list args; whenever the right side parses
to a bare identifier name, it continues with the single-argument call
name(x) for every x and name; any other right side is the fatal
expected-function-call parse error.  A bang call itself parses to
FunctionCall(callee, args) for every non-field-access callee, so x |> f
rewrites to exactly the AST of f! x, namely f(x), and x |> f! a to exactly
the AST of f! x a, namely f(x, a); identical ASTs evaluate identically.
Representative end-to-end instances close the theorem.  (x |> f a without
the bang is a parse error - see the counterexample.) -/
theorem claim_C4 : ∀ (n : Nat) (p p1 p2 : Parser) (expr rhsE e : Expr)
    (args : List Expr) (name : String),
    (logical_or n p = .ok (rhsE, p1) → pipeline (n + 1) p = pipelineLoop n p1 rhsE)
    ∧ ((p.matches_over_line TokenType.Pipeline).1 = false →
        pipelineLoop (n + 1) p expr =
          .ok (expr, (p.matches_over_line TokenType.Pipeline).2))
    ∧ (p.matches_over_line TokenType.Pipeline = (true, p1) →
        logical_or n p1 = .ok (Expr.FunctionCall e args, p2) →
        pipelineLoop (n + 1) p expr =
          pipelineLoop n p2 (Expr.FunctionCall e (expr :: args)))
    ∧ (p.matches_over_line TokenType.Pipeline = (true, p1) →
        logical_or n p1 = .ok (Expr.Literal (Value.Identifier name), p2) →
        pipelineLoop (n + 1) p expr =
          pipelineLoop n p2 (Expr.FunctionCall (Expr.Literal (Value.Identifier name)) [expr]))
    ∧ (p.matches_over_line TokenType.Pipeline = (true, p1) →
        logical_or n p1 = .ok (rhsE, p2) →
        (∀ e2 args2, rhsE ≠ Expr.FunctionCall e2 args2) →
        (∀ name2, rhsE ≠ Expr.Literal (Value.Identifier name2)) →
        pipelineLoop (n + 1) p expr = .error ParseErr.expectedFnCallPipeline)
    ∧ ((p.matchesT [TokenType.Dot]).1 = false →
        (p.matchesT [TokenType.Dot]).2.matchesT [TokenType.Bang] = (true, p1) →
        argumentsP n p1 = .ok (args, p2) →
        (∀ g gname, expr ≠ Expr.Get g gname) →
        callLoop (n + 1) p expr = callLoop n p2 (Expr.FunctionCall expr args))
    ∧ (parse 30 [tok (.Int 1), tok .Pipeline, tok (.Identifier ("f")), tok .Semicolon]
      = .ok [Expr.FunctionCall (Expr.Literal (Value.Identifier ("f")))
              [Expr.Literal (Value.Int 1)]])
    ∧ (parse 30 [tok (.Identifier ("f")), tok .Bang, tok (.Int 1), tok .Semicolon]
      = .ok [Expr.FunctionCall (Expr.Literal (Value.Identifier ("f")))
              [Expr.Literal (Value.Int 1)]])
    ∧ (parse 30 [tok (.Int 1), tok .Pipeline, tok (.Identifier ("f")), tok .Semicolon]
      = parse 30 [tok (.Identifier ("f")), tok .Bang, tok (.Int 1), tok .Semicolon])
    ∧ (parse 30 [tok (.Int 1), tok .Pipeline, tok (.Identifier ("f")), tok .Bang,
          tok (.Int 2), tok .Semicolon]
      = .ok [Expr.FunctionCall (Expr.Literal (Value.Identifier ("f")))
              [Expr.Literal (Value.Int 1), Expr.Literal (Value.Int 2)]])
    ∧ (parse 30 [tok (.Identifier ("f")), tok .Bang, tok (.Int 1), tok (.Int 2),
          tok .Semicolon]
      = .ok [Expr.FunctionCall (Expr.Literal (Value.Identifier ("f")))
              [Expr.Literal (Value.Int 1), Expr.Literal (Value.Int 2)]])
    ∧ (parse 30 [tok (.Int 1), tok .Pipeline, tok (.Identifier ("f")), tok .Bang,
          tok (.Int 2), tok .Semicolon]
      = parse 30 [tok (.Identifier ("f")), tok .Bang, tok (.Int 1), tok (.Int 2),
          tok .Semicolon]) := by
  intro n p p1 p2 expr rhsE e args name
  have h1 : parse 30 [tok (.Int 1), tok .Pipeline, tok (.Identifier ("f")), tok .Semicolon]
      = .ok [Expr.FunctionCall (Expr.Literal (Value.Identifier ("f")))
              [Expr.Literal (Value.Int 1)]] := by rfl
  have h2 : parse 30 [tok (.Identifier ("f")), tok .Bang, tok (.Int 1), tok .Semicolon]
      = .ok [Expr.FunctionCall (Expr.Literal (Value.Identifier ("f")))
              [Expr.Literal (Value.Int 1)]] := by rfl
  have h3 : parse 30 [tok (.Int 1), tok .Pipeline, tok (.Identifier ("f")), tok .Bang,
        tok (.Int 2), tok .Semicolon]
      = .ok [Expr.FunctionCall (Expr.Literal (Value.Identifier ("f")))
              [Expr.Literal (Value.Int 1), Expr.Literal (Value.Int 2)]] := by rfl
  have h4 : parse 30 [tok (.Identifier ("f")), tok .Bang, tok (.Int 1), tok (.Int 2),
        tok .Semicolon]
      = .ok [Expr.FunctionCall (Expr.Literal (Value.Identifier ("f")))
              [Expr.Literal (Value.Int 1), Expr.Literal (Value.Int 2)]] := by rfl
  refine ⟨?_, ?_, ?_, ?_, ?_, ?_, h1, h2, h1.trans h2.symm, h3, h4, h3.trans h4.symm⟩
  · intro hlor
    simp only [pipeline, hlor, bind, Except.bind]
  · intro hm
    simp [pipelineLoop, hm]
  · intro hm hlor
    simp only [pipelineLoop, hm, hlor, bind, Except.bind]
    rfl
  · intro hm hlor
    simp only [pipelineLoop, hm, hlor, bind, Except.bind]
    rfl
  · intro hm hlor hnc hni
    simp only [pipelineLoop, hm, hlor, bind, Except.bind]
    rfl
  · intro hd hb ha hg
    simp only [callLoop, hd, hb, ha, bind, Except.bind]
    rfl

set_option maxHeartbeats 1000000 in
/-- Claim C4 witness: with the |> token consumed and its right side parsed
as the call f! 2, the rewrite continues with the left operand 1 prepended as
the first argument, i.e. f(1, 2); with the right side parsed as the literal
3 (neither a call nor a bare identifier) the rewrite is the fatal
expected-function-call error; and the bang call f! 2 itself parses to
FunctionCall(f, [2]). -/
theorem claim_C4_witness :
    (pipelineLoop 21 { tokens := c4wtokens, index := 0, col := 0 } (intE 1) =
      pipelineLoop 20 { tokens := c4wtokens, index := 5, col := 0 }
        (Expr.FunctionCall (Expr.Literal (Value.Identifier ("f")))
          [intE 1, Expr.Literal (Value.Int 2)]))
    ∧ (pipelineLoop 21
        { tokens := [tok .Pipeline, tok (.Int 3), tok .Semicolon], index := 0, col := 0 }
        (intE 1) = .error ParseErr.expectedFnCallPipeline)
    ∧ (callLoop 21 { tokens := c4wtokens, index := 2, col := 0 }
        (Expr.Literal (Value.Identifier ("f"))) =
      callLoop 20 { tokens := c4wtokens, index := 5, col := 0 }
        (Expr.FunctionCall (Expr.Literal (Value.Identifier ("f")))
          [Expr.Literal (Value.Int 2)])) :=
  ⟨(claim_C4 20 { tokens := c4wtokens, index := 0, col := 0 }
      { tokens := c4wtokens, index := 1, col := 0 }
      { tokens := c4wtokens, index := 5, col := 0 } (intE 1) (intE 0)
      (Expr.Literal (Value.Identifier ("f"))) [Expr.Literal (Value.Int 2)]
      ("z")).2.2.1 rfl rfl,
   (claim_C4 20
      { tokens := [tok .Pipeline, tok (.Int 3), tok .Semicolon], index := 0, col := 0 }
      { tokens := [tok .Pipeline, tok (.Int 3), tok .Semicolon], index := 1, col := 0 }
      { tokens := [tok .Pipeline, tok (.Int 3), tok .Semicolon], index := 2, col := 0 }
      (intE 1) (Expr.Literal (Value.Int 3)) (intE 0) [] ("z")).2.2.2.2.1 rfl rfl
      (by simp) (by simp),
   (claim_C4 20 { tokens := c4wtokens, index := 2, col := 0 }
      { tokens := c4wtokens, index := 3, col := 0 }
      { tokens := c4wtokens, index := 5, col := 0 }
      (Expr.Literal (Value.Identifier ("f"))) (intE 0) (intE 0)
      [Expr.Literal (Value.Int 2)] ("z")).2.2.2.2.2.1 rfl rfl rfl (by simp)⟩

/-- The token sequence of the malformed declaration x: 1 - a Colon not
followed by Equal. -/
def c9ft : List Token :=
  [tok (.Identifier ("x")), tok .Colon, tok (.Int 1)]

/-- The parser state in which Parser::declaration's scan-for-Equal loop
spins: the Colon is consumed, the current token is Int 1. -/
def c9stuck : Parser := { tokens := c9ft, index := 2, col := 0 }

/-- The parser state after the statement's LHS expression x is parsed. -/
def c9p1 : Parser := { tokens := c9ft, index := 1, col := 0 }

/-- The declaration loop never terminates at the stuck state: at every fuel
it exhausts the fuel without advancing. -/
theorem declLoop_c9 : ∀ k, declLoop k c9stuck = .error .fuelErr := by
  intro k
  induction k with
  | zero => rfl
  | succ m ih =>
    simp only [declLoop]
    exact ih

/-- The expression ladder parses the identifier x at any sufficient fuel. -/
theorem expression_c9 : ∀ m, expression (m + 12) { tokens := c9ft, index := 0, col := 0 } =
    .ok (Expr.Literal (Value.Identifier ("x")), c9p1) := fun _ => rfl

/-- Parser::declaration diverges from the stuck state at every fuel. -/
theorem declaration_c9 : ∀ m, declaration (m + 1) c9p1 (Expr.Literal (Value.Identifier ("x"))) =
    .error .fuelErr := by
  intro m
  have hm : c9p1.matchesT [TokenType.Colon] = (true, c9stuck) := rfl
  have hd := declLoop_c9 m
  simp [declaration, hm, hd]
  rfl

/-- Parser::statement on the malformed declaration diverges at every
sufficient fuel (and exhausts smaller fuels). -/
theorem statement_c9 : ∀ m, statement (m + 13) { tokens := c9ft, index := 0, col := 0 } =
    .error .fuelErr := by
  intro m
  have he : expression (m + 12) { tokens := c9ft, index := 0, col := 0 } =
      .ok (Expr.Literal (Value.Identifier ("x")), c9p1) := expression_c9 m
  have hdc : declaration (m + 12) c9p1 (Expr.Literal (Value.Identifier ("x"))) =
      .error .fuelErr := declaration_c9 (m + 11)
  have hpk : Parser.peek { tokens := c9ft, index := 0, col := 0 } =
      some (tok (TokenType.Identifier ("x"))) := rfl
  have hpk1 : Parser.peek c9p1 = some (tok TokenType.Colon) := rfl
  simp [statement, tok, hpk, hpk1, he, hdc, isIdentifierLiteral, bind, Except.bind]
  intro hh
  exact absurd hh (by decide)

/-- The statement loop of Parser::parse diverges on the malformed declaration
at every sufficient fuel. -/
theorem parseLoop_c9 : ∀ m, parseLoop (m + 14) { tokens := c9ft, index := 0, col := 0 } =
    .error .fuelErr := by
  intro m
  have hs : statement (m + 13) { tokens := c9ft, index := 0, col := 0 } =
      .error .fuelErr := statement_c9 m
  have hskip : skipLineEnds (m + 13) { tokens := c9ft, index := 0, col := 0 } =
      .ok { tokens := c9ft, index := 0, col := 0 } := rfl
  have hpk : Parser.peek { tokens := c9ft, index := 0, col := 0 } =
      some (tok (TokenType.Identifier ("x"))) := rfl
  have hmf : Parser.matchesT { tokens := c9ft, index := 0, col := 0 } [TokenType.EndOfFile] =
      (false, { tokens := c9ft, index := 0, col := 0 }) := rfl
  simp [parseLoop, hpk, hskip, hmf, hs, bind, Except.bind]

/-- Claim C9 (evaluation at the failing input): on the token sequence of
x: 1 (Colon not followed by Equal) the parse diverges - at every fuel the
result is fuel exhaustion, never a parse error or a result - because the
declaration's scan-for-Equal loop never advances.  The claim and the spec
require an immediate fatal parse error.  A well-formed declaration
x := 1; parses to the expected Declaration node. -/
theorem claim_C9_eval :
    (∀ fuel, parse fuel c9ft = .error ParseErr.fuelErr)
    ∧ (parse 30 [tok (.Identifier ("x")), tok .Colon, tok .Equal, tok (.Int 1), tok .Semicolon]
        = .ok [Expr.Declaration (Expr.Literal (Value.Identifier ("x")))
                (some (Expr.Literal (Value.Int 1)))]) := by
  constructor
  · intro fuel
    rcases Nat.lt_or_ge fuel 14 with h | h
    · interval_cases fuel <;> rfl
    · obtain ⟨m, rfl⟩ := Nat.exists_eq_add_of_le h
      rw [Nat.add_comm]
      have hp := parseLoop_c9 m
      simp [parse, hp, bind, Except.bind]
  · rfl

/-- Claim C6 (counterexample): an if whose condition evaluates to the
non-Bool value Int 5 is not a fatal type error - it evaluates the else
branch and yields Int 2. -/
theorem claim_C6_counterexample :
    interpret_expr 10 Interpreter.new
        (Expr.If (Expr.Literal (Value.Int 5)) (Expr.Literal (Value.Int 1))
          (some (Expr.Literal (Value.Int 2)))) = .ok (Value.Int 2, Interpreter.new) := rfl

/-- Claim C6 (amended): an if evaluates and resolves its condition once;
Bool(true) selects exactly the then-branch, and EVERY other value - Bool
false or any non-Bool value - selects exactly the else branch (the missing
else is the only fatal error, and a non-Bool condition is not a type error);
a while re-evaluates its condition before each iteration (including the
first) and terminates yielding Bool false as soon as the condition is any
value other than Bool(true), non-Bool included. -/
theorem claim_C6 : ∀ (n : Nat) (st st1 : Interpreter) (c t b : Expr) (oe : Option Expr)
    (v rv : Value),
    (interpret_expr (n + 1) st (.If c t oe) = interpret_if n st c t oe)
    ∧ (interpret_expr (n + 1) st (.While c b) = interpret_while n st c b)
    ∧ (interpret_expr n st c = .ok (v, st1) → resolve_value st1 v = .ok rv →
        ((interpret_if (n + 1) st c t oe =
            match rv with
            | .Bool true => interpret_expr n st1 t
            | _ =>
              match oe with
              | some fb => interpret_expr n st1 fb
              | none => .error RTErr.ifNoElse)
          ∧ (interpret_while (n + 1) st c b =
              match rv with
              | .Bool true =>
                match interpret_expr n st1 b with
                | .error err => .error err
                | .ok (_, st2) => interpret_while n st2 c b
              | _ => .ok (.Bool false, st1)))) := by
  intro n st st1 c t b oe v rv
  refine ⟨rfl, rfl, fun h1 h2 => ⟨?_, ?_⟩⟩
  · simp only [interpret_if, h1, h2]
  · simp only [interpret_while, h1, h2]

/-- Claim C6 witness: at condition Int 5 the if runs exactly its else
branch. -/
theorem claim_C6_witness :
    interpret_if 2 Interpreter.new (Expr.Literal (Value.Int 5)) (Expr.Literal (Value.Int 1))
        (some (Expr.Literal (Value.Int 2)))
      = interpret_expr 1 Interpreter.new (Expr.Literal (Value.Int 2)) :=
  ((claim_C6 1 Interpreter.new Interpreter.new (Expr.Literal (Value.Int 5))
      (Expr.Literal (Value.Int 1)) (Expr.Literal (Value.Int 9))
      (some (Expr.Literal (Value.Int 2))) (Value.Int 5) (Value.Int 5)).2.2 rfl rfl).1

/-- Each interpreted statement yields exactly one value: a successful
interpret returns one value per input expression. -/
theorem interpret_length : ∀ (es : List Expr) (n : Nat) (st st2 : Interpreter)
    (vs : List Value), interpret n st es = .ok (vs, st2) → vs.length = es.length := by
  intro es
  induction es with
  | nil =>
    intro n st st2 vs h
    cases n with
    | zero => exact absurd h (by simp [interpret])
    | succ k =>
      simp only [interpret, Except.ok.injEq, Prod.mk.injEq] at h
      rw [← h.1]
      rfl
  | cons e rest ih =>
    intro n st st2 vs h
    cases n with
    | zero => exact absurd h (by simp [interpret])
    | succ k =>
      simp only [interpret] at h
      cases hie : interpret_expr k st e with
      | error err =>
        simp only [hie] at h
        exact Except.noConfusion h
      | ok pv =>
        obtain ⟨v1, stA⟩ := pv
        simp only [hie] at h
        cases hrv : resolve_value stA v1 with
        | error err =>
          simp only [hrv] at h
          exact Except.noConfusion h
        | ok rv =>
          simp only [hrv] at h
          cases hrest : interpret k stA rest with
          | error err =>
            simp only [hrest] at h
            exact Except.noConfusion h
          | ok pr =>
            obtain ⟨vs2, stB⟩ := pr
            simp only [hrest, Except.ok.injEq, Prod.mk.injEq] at h
            rw [← h.1]
            simp only [List.length_cons]
            exact congrArg (fun z => z + 1) (ih k stA stB vs2 hrest)

/-- A while loop that returns normally always yields the sentinel
Bool false. -/
theorem interpret_while_false : ∀ (n : Nat) (st st2 : Interpreter) (c b : Expr)
    (v : Value), interpret_while n st c b = .ok (v, st2) → v = .Bool false := by
  intro n
  induction n with
  | zero =>
    intro st st2 c b v h
    exact absurd h (by simp [interpret_while])
  | succ k ih =>
    intro st st2 c b v h
    simp only [interpret_while] at h
    cases hie : interpret_expr k st c with
    | error err =>
      simp only [hie] at h
      exact Except.noConfusion h
    | ok pv =>
      obtain ⟨cv, st1⟩ := pv
      simp only [hie] at h
      cases hrv : resolve_value st1 cv with
      | error err =>
        simp only [hrv] at h
        exact Except.noConfusion h
      | ok rcv =>
        simp only [hrv] at h
        cases rcv with
        | Bool bv =>
          cases bv with
          | true =>
            simp only at h
            cases hb : interpret_expr k st1 b with
            | error err =>
              simp only [hb] at h
              exact Except.noConfusion h
            | ok pb =>
              obtain ⟨bv2, st3⟩ := pb
              simp only [hb] at h
              exact ih st3 st2 c b v h
          | false =>
            simp only [Except.ok.injEq, Prod.mk.injEq] at h
            exact h.1.symm
        | String s =>
          simp only [Except.ok.injEq, Prod.mk.injEq] at h
          exact h.1.symm
        | Int i =>
          simp only [Except.ok.injEq, Prod.mk.injEq] at h
          exact h.1.symm
        | Identifier s =>
          simp only [Except.ok.injEq, Prod.mk.injEq] at h
          exact h.1.symm
        | Lambda ps bd env =>
          simp only [Except.ok.injEq, Prod.mk.injEq] at h
          exact h.1.symm

/-- A block that returns normally always yields the sentinel Bool false. -/
theorem interpret_block_false : ∀ (n : Nat) (st st2 : Interpreter) (es : List Expr)
    (v : Value), interpret_expr (n + 1) st (.Block es) = .ok (v, st2) → v = .Bool false := by
  intro n st st2 es v h
  simp only [interpret_expr] at h
  cases hi : interpret n { st with environment := .mk (some st.environment) [] } es with
  | error err =>
    simp only [hi] at h
    exact Except.noConfusion h
  | ok pr =>
    obtain ⟨vs, st1⟩ := pr
    simp only [hi] at h
    cases hp : st1.environment.parent with
    | none =>
      simp only [hp] at h
      exact Except.noConfusion h
    | some parentEnv =>
      simp only [hp, Except.ok.injEq, Prod.mk.injEq] at h
      exact h.1.symm

/-- A declaration yields the resolved value of its initializer and defines
the binding in the innermost scope. -/
theorem interpret_decl_value : ∀ (n : Nat) (st st1 : Interpreter) (x : String) (e : Expr)
    (iv riv : Value),
    interpret_expr n st e = .ok (iv, st1) → resolve_value st1 iv = .ok riv →
    interpret_decl (n + 1) st (.Literal (.Identifier x)) (some e) =
      .ok (riv, { st1 with environment := st1.environment.define x riv }) := by
  intro n st st1 x e iv riv h1 h2
  cases n with
  | zero => exact absurd h1 (by simp [interpret_expr])
  | succ k =>
    have hlit : interpret_expr (k + 1) st1 (Expr.Literal (Value.Identifier x)) =
        .ok (Value.Identifier x, st1) := rfl
    simp only [interpret_decl, h1, h2, hlit]

/-- Claim C7 (counterexample): a declaration used as a top-level statement
yields the initializer's value (here Int 1), not the sentinel boolean
false. -/
theorem claim_C7_counterexample :
    (interpret 10 Interpreter.new [Expr.Declaration (idE "x") (some (intE 1))]).map
        (fun r => r.1) = .ok [Value.Int 1] := rfl

/-- Claim C7 (amended): every successfully interpreted top-level statement
yields exactly one Value (one value per statement); blocks and while-loops
yield the sentinel Bool false; a declaration used as a statement instead
yields its initializer's resolved value. -/
theorem claim_C7 : ∀ (n : Nat) (st st1 st2 : Interpreter) (es : List Expr) (c b e : Expr)
    (x : String) (vs : List Value) (v iv riv : Value),
    (interpret n st es = .ok (vs, st2) → vs.length = es.length)
    ∧ (interpret_expr (n + 1) st (.Block es) = .ok (v, st2) → v = .Bool false)
    ∧ (interpret_while n st c b = .ok (v, st2) → v = .Bool false)
    ∧ (interpret_expr (n + 1) st (.Declaration (.Literal (.Identifier x)) (some e)) =
        interpret_decl n st (.Literal (.Identifier x)) (some e))
    ∧ (interpret_expr n st e = .ok (iv, st1) → resolve_value st1 iv = .ok riv →
        interpret_decl (n + 1) st (.Literal (.Identifier x)) (some e) =
          .ok (riv, { st1 with environment := st1.environment.define x riv })) :=
  fun n st st1 st2 es c b e x vs v iv riv =>
    ⟨fun h => interpret_length es n st st2 vs h,
     fun h => interpret_block_false n st st2 es v h,
     fun h => interpret_while_false n st st2 c b v h,
     rfl,
     fun h1 h2 => interpret_decl_value n st st1 x e iv riv h1 h2⟩

/-- Claim C7 witness: the one-statement program x := 1 yields exactly one
value, namely the initializer Int 1. -/
theorem claim_C7_witness :
    ([Value.Int 1].length = [Expr.Declaration (idE "x") (some (intE 1))].length)
    ∧ (interpret_decl 2 Interpreter.new (.Literal (.Identifier ("x"))) (some (intE 1)) =
        .ok (Value.Int 1,
          { Interpreter.new with
            environment := Interpreter.new.environment.define ("x") (Value.Int 1) })) :=
  ⟨(claim_C7 10 Interpreter.new Interpreter.new
      { environment := .mk none [("x", Value.Int 1)], output := [] }
      [Expr.Declaration (idE "x") (some (intE 1))] (intE 0) (intE 0) (intE 1) ("x")
      [Value.Int 1] (Value.Bool false) (Value.Int 1) (Value.Int 1)).1 rfl,
   (claim_C7 1 Interpreter.new Interpreter.new Interpreter.new
      [] (intE 0) (intE 0) (intE 1) ("x") [] (Value.Bool false) (Value.Int 1)
      (Value.Int 1)).2.2.2.2 rfl rfl⟩

/-- The guard matches!(value, Value::Identifier(_)). -/
def isIdentifierValue : Value → Bool
  | .Identifier _ => true
  | _ => false

set_option maxHeartbeats 1000000 in
/-- Claim C8 (counterexample): the assignment statement 1 = 2; parses
successfully to an Assignment node whose left-hand side is the non-identifier
literal 1 - no parse-time check rejects it. -/
theorem claim_C8_counterexample :
    parse 30 [tok (.Int 1), tok .Equal, tok (.Int 2), tok .Semicolon]
      = .ok [Expr.Assignment (Expr.Literal (Value.Int 1)) (Expr.Literal (Value.Int 2))] := rfl

set_option maxHeartbeats 1000000 in
/-- Claim C8 (amended): the bare-identifier requirement on the left-hand side
is enforced at parse time for declarations only (a declaration whose
already-parsed LHS is not a bare identifier is a fatal parse error); for
assignments the parser accepts any LHS expression and the requirement is
enforced at evaluation time, where a non-identifier LHS value is the fatal
invalid-LHS runtime error. -/
theorem claim_C8 :
    (parse 30 [tok (.Int 1), tok .Colon, tok .Equal, tok (.Int 2), tok .Semicolon]
      = .error ParseErr.invalidDeclLHS)
    ∧ (∀ (n : Nat) (st : Interpreter) (v : Value) (e : Expr),
        isIdentifierValue v = false →
        interpret_assignment (n + 2) st (.Literal v) e = .error RTErr.invalidAssignLHS) := by
  constructor
  · rfl
  · intro n st v e hv
    have hlit : interpret_expr (n + 1) st (Expr.Literal v) = .ok (v, st) := rfl
    show interpret_assignment ((n + 1) + 1) st (.Literal v) e = .error RTErr.invalidAssignLHS
    simp only [interpret_assignment, hlit]
    cases v with
    | Identifier s => exact absurd hv (by simp [isIdentifierValue])
    | String s => rfl
    | Int i => rfl
    | Bool b => rfl
    | Lambda ps bd env => rfl

/-- Claim C8 witness: assigning to the literal 1 fails at evaluation time
with the invalid-LHS error. -/
theorem claim_C8_witness :
    interpret_assignment 2 Interpreter.new (.Literal (Value.Int 1)) (intE 2)
      = .error RTErr.invalidAssignLHS :=
  claim_C8.2 0 Interpreter.new (Value.Int 1) (intE 2) rfl

/-- Claim C10: an assignment statement is an expression whose result is the
assigned value - when the right-hand side evaluates and resolves to rv and
the target is bound in some enclosing scope, the assignment succeeds,
mutates the binding via Environment::set, and yields exactly rv (not a
void/sentinel result). -/
theorem claim_C10 : ∀ (n : Nat) (st st1 : Interpreter) (x : String) (e : Expr)
    (v rv : Value),
    (interpret_expr (n + 1) st (.Assignment (.Literal (.Identifier x)) e) =
      interpret_assignment n st (.Literal (.Identifier x)) e)
    ∧ (interpret_expr n st e = .ok (v, st1) → resolve_value st1 v = .ok rv →
        (st1.environment.get x).isSome = true →
        ∃ env2, st1.environment.set x rv = some env2 ∧
          interpret_assignment (n + 1) st (.Literal (.Identifier x)) e =
            .ok (rv, { st1 with environment := env2 })) := by
  intro n st st1 x e v rv
  refine ⟨rfl, fun h1 h2 h3 => ?_⟩
  have hset : Environment.set st1.environment x rv ≠ none := by
    rw [Ne, set_none_iff]
    intro hg
    rw [hg] at h3
    exact Bool.noConfusion h3
  obtain ⟨env2, henv⟩ := Option.ne_none_iff_exists.mp hset
  refine ⟨env2, henv.symm, ?_⟩
  cases n with
  | zero => exact absurd h1 (by simp [interpret_expr])
  | succ k =>
    have hlit : interpret_expr (k + 1) st (Expr.Literal (Value.Identifier x)) =
        .ok (Value.Identifier x, st) := rfl
    simp only [interpret_assignment, hlit, h1, h2, ← henv]

/-- Claim C10 witness: with x bound to Int 0, the statement x = 5 yields
Int 5. -/
theorem claim_C10_witness :
    ∃ env2,
      Environment.set (Environment.mk none [(("x"), Value.Int 0)]) ("x") (Value.Int 5) =
        some env2 ∧
      interpret_assignment 2 { environment := .mk none [(("x"), Value.Int 0)], output := [] }
          (.Literal (.Identifier ("x"))) (intE 5) =
        .ok (Value.Int 5,
          { ({ environment := .mk none [(("x"), Value.Int 0)], output := [] } : Interpreter) with
            environment := env2 }) :=
  (claim_C10 1 { environment := .mk none [(("x"), Value.Int 0)], output := [] }
      { environment := .mk none [(("x"), Value.Int 0)], output := [] } ("x") (intE 5)
      (Value.Int 5) (Value.Int 5)).2 rfl rfl rfl
